import Mathlib

/-!
# Verification of the Document Viewport & Citation Bridge

Shallow embedding of the highlight/citation core of the `pdf-reader-ai`
frontend:

* `PDFViewer.jsx` — highlight lifecycle (`highlightAndScroll`, the 8-second
  expiry timer, `clearHighlights`), the coordinate mapping
  (`getHighlightStyle`), the per-page overlay rendering, and the scroll
  tracker (`handleScroll`).
* `ChatMessage.jsx` — the citation-marker parser (`parsedContent`): the
  split on `/(\[\d+\])/g` and the per-part re-match `/^\[(\d+)\]$/`.
* `App.jsx` — the citation bridge `handleCitationClick`.

Numbers that JavaScript holds as floats are modelled as rationals (`ℚ`);
strings are modelled as `List Char`.  Presentation-only constants (CSS
colors, animation) are not carried.
-/

/-- A bounding box `{x0, y0, x1, y1}` in source-document units. -/
structure BBox where
  x0 : ℚ
  y0 : ℚ
  x1 : ℚ
  y1 : ℚ
  deriving DecidableEq, Repr

/-- A citation object as supplied by the backend and consumed by
`handleCitationClick` (`App.jsx`): `bounding_boxes` is optional because the
code accesses it as `citation.bounding_boxes?.length`. -/
structure Citation where
  page : ℕ
  bounding_boxes : Option (List BBox)
  page_width : ℚ
  page_height : ℚ
  deriving DecidableEq, Repr

/-- One element of the `highlights` state array built by `highlightAndScroll`
(`PDFViewer.jsx` lines 44–51).  The id `highlight-${Date.now()}-${index}` is
modelled as the pair (timestamp, index). -/
structure Highlight where
  id : ℕ × ℕ
  page : ℕ
  bbox : BBox
  sourcePageWidth : ℚ
  sourcePageHeight : ℚ
  deriving DecidableEq, Repr

/-- The state of the `PDFViewer` component that the highlight lifecycle
touches.  `pendingTimers` records the fire times (in ms) of the
`setTimeout(() => setHighlights([]), 8000)` calls that have not fired yet;
`scrollRequests` accumulates the pages passed to `scrollIntoView`;
`pageRefs` lists the (0-indexed) pages whose wrapper element exists;
`canvases` maps a 1-indexed page number to its canvas pixel dimensions
(width, height), absent while the canvas element does not exist. -/
structure ViewerState where
  highlights : List Highlight
  pendingTimers : List ℕ
  scrollRequests : List ℕ
  pageRefs : List ℕ
  canvases : List (ℕ × ℚ × ℚ)
  deriving DecidableEq, Repr

/-- The viewer state with no highlight and no pending timer (the `Idle`
state of the spec's HighlightManager state machine). -/
def ViewerState.idle (refs : List ℕ) (cvs : List (ℕ × ℚ × ℚ)) : ViewerState :=
  { highlights := [], pendingTimers := [], scrollRequests := [],
    pageRefs := refs, canvases := cvs }

/-- `highlightAndScroll(pageNumber, boundingBoxes, pageWidth, pageHeight)`
(`PDFViewer.jsx` lines 39–65): clears the previous highlights, installs one
highlight per bounding box (in list order), scrolls to the page if its
element exists, and schedules `setHighlights([])` 8000 ms from `now`.
The previous timer is NOT cancelled: the new fire time is appended to the
pending set. -/
def highlightAndScroll (now pageNumber : ℕ) (boundingBoxes : List BBox)
    (pageWidth pageHeight : ℚ) (s : ViewerState) : ViewerState :=
  let newHighlights := boundingBoxes.enum.map fun p =>
    { id := (now, p.1), page := pageNumber, bbox := p.2,
      sourcePageWidth := pageWidth, sourcePageHeight := pageHeight }
  { s with
    highlights := newHighlights,
    scrollRequests :=
      if pageNumber ∈ s.pageRefs then s.scrollRequests ++ [pageNumber]
      else s.scrollRequests,
    pendingTimers := s.pendingTimers ++ [now + 8000] }

/-- `clearHighlights` (`PDFViewer.jsx` line 67). -/
def clearHighlights (s : ViewerState) : ViewerState :=
  { s with highlights := [] }

/-- Advance the clock to `now`: every pending `setTimeout` callback whose
fire time has been reached runs.  Each callback is the closure
`() => setHighlights([])` of `PDFViewer.jsx` lines 62–64 — it clears the
highlight state unconditionally, with no batch-identity check. -/
def runTimers (now : ℕ) (s : ViewerState) : ViewerState :=
  { s with
    highlights := if s.pendingTimers.any (· ≤ now) then [] else s.highlights,
    pendingTimers := s.pendingTimers.filter (fun t => now < t) }

/-- The highlight batch `highlightAndScroll` builds from a call's arguments
(the `boundingBoxes.map` of `PDFViewer.jsx` lines 44–51). -/
def mkBatch (now pageNumber : ℕ) (boundingBoxes : List BBox)
    (pageWidth pageHeight : ℚ) : List Highlight :=
  boundingBoxes.enum.map fun p =>
    { id := (now, p.1), page := pageNumber, bbox := p.2,
      sourcePageWidth := pageWidth, sourcePageHeight := pageHeight }

/-- The pixel geometry of one highlight overlay (the numeric fields of the
style object returned by `getHighlightStyle`; constant CSS fields omitted). -/
structure HighlightStyle where
  left : ℚ
  top : ℚ
  width : ℚ
  height : ℚ
  deriving DecidableEq, Repr

/-- Association-list lookup, modelling `canvasRefs.current[n]`. -/
def lookupCanvas (n : ℕ) : List (ℕ × ℚ × ℚ) → Option (ℚ × ℚ)
  | [] => none
  | (k, d) :: rest => if k = n then some d else lookupCanvas n rest

/-- `getHighlightStyle(highlight)` (`PDFViewer.jsx` lines 160–188): looks up
the canvas of page `highlight.page + 1`; returns `null` when it does not
exist, otherwise scales each bbox coordinate by
`canvasWidth / sourcePageWidth` and `canvasHeight / sourcePageHeight`.
There is no check for zero source dimensions (JS float division by zero
yields `Infinity`; in `ℚ` the quotient is `0` — either way a non-null style
object is produced). -/
def getHighlightStyle (h : Highlight) (canvases : List (ℕ × ℚ × ℚ)) :
    Option HighlightStyle :=
  match lookupCanvas (h.page + 1) canvases with
  | none => none
  | some (canvasWidth, canvasHeight) =>
    let scaleX := canvasWidth / h.sourcePageWidth
    let scaleY := canvasHeight / h.sourcePageHeight
    some { left := h.bbox.x0 * scaleX,
           top := h.bbox.y0 * scaleY,
           width := (h.bbox.x1 - h.bbox.x0) * scaleX,
           height := (h.bbox.y1 - h.bbox.y0) * scaleY }

/-- The overlays actually drawn for 1-indexed page `pageNum`
(`PDFViewer.jsx` lines 254–266): the highlights of that page, each mapped
through `getHighlightStyle`, with the `null` results skipped. -/
def renderOverlays (pageNum : ℕ) (s : ViewerState) : List HighlightStyle :=
  (s.highlights.filter (fun h => h.page = pageNum - 1)).filterMap
    (fun h => getHighlightStyle h s.canvases)

/-- One step of the scanning done by `content.split(/(\[\d+\])/g)`
(`ChatMessage.jsx` line 26): at the current position, try to match
`\[\d+\]` — an opening bracket, one or more digits (greedy), a closing
bracket.  On success return the digits and the remaining input. -/
def matchMarker (l : List Char) : Option (List Char × List Char) :=
  match l with
  | c :: r =>
    if c = '[' then
      match r.dropWhile Char.isDigit with
      | ']' :: rest2 =>
        if (r.takeWhile Char.isDigit).isEmpty then none
        else some (r.takeWhile Char.isDigit, rest2)
      | _ => none
    else none
  | [] => none

/-- `content.split(/(\[\d+\])/g)` (`ChatMessage.jsx` line 26): leftmost-match
scanning; the captured marker substrings are kept in the output between the
(possibly empty) literal chunks, exactly as JavaScript `split` with a
capture group does.  `fuel` only forces termination: every step consumes at
least one input character, so `fuel = input length` (as `splitCitations`
passes) makes the fuel-exhaustion case unreachable. -/
def splitAux : ℕ → List Char → List Char → List (List Char)
  | 0, acc, l => [acc.reverse ++ l]
  | _ + 1, acc, [] => [acc.reverse]
  | fuel + 1, acc, c :: cs =>
    match matchMarker (c :: cs) with
    | some (ds, rest) =>
      acc.reverse :: ('[' :: (ds ++ [']'])) :: splitAux fuel [] rest
    | none => splitAux fuel (c :: acc) cs

def splitCitations (content : List Char) : List (List Char) :=
  splitAux content.length [] content

/-- `part.match(/^\[(\d+)\]$/)` (`ChatMessage.jsx` line 32): the whole part
is exactly one marker; returns the digit group. -/
def fullMarkerMatch : List Char → Option (List Char)
  | '[' :: rest =>
    match rest.dropWhile Char.isDigit with
    | [']'] =>
      let ds := rest.takeWhile Char.isDigit
      if ds.isEmpty then none else some ds
    | _ => none
  | _ => none

/-- `message.citations[citationNum]` — lookup of a digit string in the
citation table. -/
def lookupCitation (num : List Char) :
    List (List Char × Citation) → Option Citation
  | [] => none
  | (k, c) :: rest => if k = num then some c else lookupCitation num rest

/-- What the parser emits for one part (`ChatMessage.jsx` lines 30–54): a
clickable citation button when the part is a marker bound in the table, and
a plain non-interactive text span otherwise (unknown markers fall through to
the span branch). -/
inductive Rendered where
  | button (num : List Char) (c : Citation)
  | span (text : List Char)
  deriving DecidableEq, Repr

def renderPart (citations : List (List Char × Citation))
    (part : List Char) : Rendered :=
  match fullMarkerMatch part with
  | some num =>
    match lookupCitation num citations with
    | some c => .button num c
    | none => .span part
  | none => .span part

/-- `parsedContent` for an assistant message with a citation table
(`ChatMessage.jsx` lines 20–57): split the content on citation markers,
then map each part to a button or a plain span. -/
def parsedContent (content : List Char)
    (citations : List (List Char × Citation)) : List Rendered :=
  (splitCitations content).map (renderPart citations)

/-- The loop body of `handleScroll` (`PDFViewer.jsx` lines 143–152):
iterate over the page elements in ascending document order (`pageTops` is
`rect.top` of page 0, 1, 2, … — `Object.entries` enumerates the
integer-like keys of `pageRefs.current` in ascending order); return the
index of the first page whose top edge satisfies
`rect.top >= containerRect.top && rect.top <= containerRect.top +
containerHeight / 2`. -/
def handleScrollAux (containerTop containerHeight : ℚ) :
    List ℚ → ℕ → Option ℕ
  | [], _ => none
  | t :: rest, idx =>
    if containerTop ≤ t ∧ t ≤ containerTop + containerHeight / 2 then some idx
    else handleScrollAux containerTop containerHeight rest (idx + 1)

/-- `handleScroll` (`PDFViewer.jsx` lines 139–153): sets
`currentPage` to (matched 0-based index) + 1 and breaks; leaves
`currentPage` unchanged when no page matches. -/
def handleScroll (containerTop containerHeight : ℚ) (pageTops : List ℚ)
    (currentPage : ℕ) : ℕ :=
  match handleScrollAux containerTop containerHeight pageTops 0 with
  | some i => i + 1
  | none => currentPage

/-- `handleCitationClick(citation)` (`App.jsx` lines 55–66): only when the
viewer ref is non-null and `citation.bounding_boxes?.length > 0` does it
call `highlightAndScroll`; otherwise nothing happens. -/
def handleCitationClick (now : ℕ) (c : Citation)
    (viewer : Option ViewerState) : Option ViewerState :=
  match viewer with
  | none => none
  | some s =>
    match c.bounding_boxes with
    | some bs =>
      if 0 < bs.length then
        some (highlightAndScroll now c.page bs c.page_width c.page_height s)
      else some s
    | none => some s

/-- Inverse coordinate map, written from the spec's words (§8): map a pixel
rectangle back with the inverse scale factors
`sourceWidth / renderedWidth`, `sourceHeight / renderedHeight`. -/
def fromPixelRect (st : HighlightStyle) (sourceWidth sourceHeight
    renderedWidth renderedHeight : ℚ) : BBox :=
  { x0 := st.left * (sourceWidth / renderedWidth),
    y0 := st.top * (sourceHeight / renderedHeight),
    x1 := (st.left + st.width) * (sourceWidth / renderedWidth),
    y1 := (st.top + st.height) * (sourceHeight / renderedHeight) }

/-! ## Theorems -/

theorem highlightAndScroll_highlights (now pageNumber : ℕ)
    (boundingBoxes : List BBox) (pageWidth pageHeight : ℚ) (s : ViewerState) :
    (highlightAndScroll now pageNumber boundingBoxes pageWidth pageHeight
      s).highlights = mkBatch now pageNumber boundingBoxes pageWidth
      pageHeight := rfl

theorem mkBatch_map_bbox (now pageNumber : ℕ) (boundingBoxes : List BBox)
    (pageWidth pageHeight : ℚ) :
    (mkBatch now pageNumber boundingBoxes pageWidth pageHeight).map
      Highlight.bbox = boundingBoxes := by
  unfold mkBatch
  rw [List.map_map]
  have : (Highlight.bbox ∘ fun p : ℕ × BBox =>
      ({ id := (now, p.1), page := pageNumber, bbox := p.2,
         sourcePageWidth := pageWidth,
         sourcePageHeight := pageHeight } : Highlight)) = Prod.snd := rfl
  rw [this, List.enum_map_snd]

theorem mkBatch_mem (now pageNumber : ℕ) (boundingBoxes : List BBox)
    (pageWidth pageHeight : ℚ) (h : Highlight)
    (hmem : h ∈ mkBatch now pageNumber boundingBoxes pageWidth pageHeight) :
    h.page = pageNumber ∧ h.sourcePageWidth = pageWidth ∧
      h.sourcePageHeight = pageHeight ∧ h.id.1 = now := by
  unfold mkBatch at hmem
  simp only [List.mem_map] at hmem
  obtain ⟨p, _, hp⟩ := hmem
  subst hp
  exact ⟨rfl, rfl, rfl, rfl⟩

/-- C2.  Immediately after a second `highlightAndScroll` call, the active
highlight set is exactly the batch built from the second call's bounding
boxes — one highlight per box, in list order — and every remaining
highlight carries the second call's page, source dimensions and timestamp:
nothing of the first call's batch survives. -/
theorem navigate_twice_newest_wins (s : ViewerState)
    (now1 now2 p1 p2 : ℕ) (boxes1 boxes2 : List BBox)
    (pw1 ph1 pw2 ph2 : ℚ) :
    ((highlightAndScroll now2 p2 boxes2 pw2 ph2
        (highlightAndScroll now1 p1 boxes1 pw1 ph1 s)).highlights
      = mkBatch now2 p2 boxes2 pw2 ph2) ∧
    ((highlightAndScroll now2 p2 boxes2 pw2 ph2
        (highlightAndScroll now1 p1 boxes1 pw1 ph1 s)).highlights.map
      Highlight.bbox = boxes2) ∧
    (∀ h ∈ (highlightAndScroll now2 p2 boxes2 pw2 ph2
        (highlightAndScroll now1 p1 boxes1 pw1 ph1 s)).highlights,
      h.page = p2 ∧ h.sourcePageWidth = pw2 ∧ h.sourcePageHeight = ph2 ∧
      h.id.1 = now2) := by
  refine ⟨rfl, ?_, ?_⟩
  · rw [highlightAndScroll_highlights, mkBatch_map_bbox]
  · intro h hmem
    rw [highlightAndScroll_highlights] at hmem
    exact mkBatch_mem now2 p2 boxes2 pw2 ph2 h hmem

/-- C9.  Starting from the `Idle` state, `highlightAndScroll` installs its
batch and exactly one pending timer at `now + 8000` ms; for any clock value
strictly before `now + 8000` the batch is still displayed, and at
`now + 8000` the timer fires, leaving the empty highlight set and no
pending timer — the batch expires exactly 8 seconds after creation. -/
theorem batch_expires_after_8_seconds (refs : List ℕ)
    (cvs : List (ℕ × ℚ × ℚ)) (now pageNumber : ℕ) (boxes : List BBox)
    (pw ph : ℚ) :
    ((highlightAndScroll now pageNumber boxes pw ph
        (ViewerState.idle refs cvs)).pendingTimers = [now + 8000]) ∧
    (∀ t, t < now + 8000 →
      (runTimers t (highlightAndScroll now pageNumber boxes pw ph
        (ViewerState.idle refs cvs))).highlights
        = mkBatch now pageNumber boxes pw ph) ∧
    ((runTimers (now + 8000) (highlightAndScroll now pageNumber boxes pw ph
        (ViewerState.idle refs cvs))).highlights = []) ∧
    ((runTimers (now + 8000) (highlightAndScroll now pageNumber boxes pw ph
        (ViewerState.idle refs cvs))).pendingTimers = []) := by
  refine ⟨rfl, ?_, ?_, ?_⟩
  · intro t ht
    simp [runTimers, highlightAndScroll, ViewerState.idle, mkBatch, ht,
      Nat.not_le.mpr ht]
  · simp [runTimers, highlightAndScroll, ViewerState.idle]
  · simp [runTimers, highlightAndScroll, ViewerState.idle]

theorem batch_expires_after_8_seconds_witness :
    (3 : ℕ) < 0 + 8000 ∧
    (runTimers 3 (highlightAndScroll 0 0 [⟨1, 2, 3, 4⟩] 10 20
      (ViewerState.idle [] []))).highlights = mkBatch 0 0 [⟨1, 2, 3, 4⟩] 10 20 :=
  ⟨by decide,
   (batch_expires_after_8_seconds [] [] 0 0 [⟨1, 2, 3, 4⟩] 10 20).2.1 3
     (by decide)⟩

/-- C1.  Failing input for the claimed timer-cancellation/identity check:
from `Idle`, navigate at `t = 0 ms` and again at `t = 7000 ms`.  The code
never cancels the first call's timer (both fire times stay pending), and
when the first timer fires at `t = 8000 ms` its callback
`setHighlights([])` clears the second call's batch unconditionally — no
batch identity is compared — while the second call's own timer is still
pending.  The stale timer thus clears the newer batch, contradicting the
claim. -/
theorem stale_timer_clears_newer_batch :
    ((highlightAndScroll 7000 0 [⟨5, 6, 7, 8⟩] 10 20
        (highlightAndScroll 0 0 [⟨1, 2, 3, 4⟩] 10 20
          (ViewerState.idle [0] [(1, 100, 200)]))).pendingTimers
      = [8000, 15000]) ∧
    ((highlightAndScroll 7000 0 [⟨5, 6, 7, 8⟩] 10 20
        (highlightAndScroll 0 0 [⟨1, 2, 3, 4⟩] 10 20
          (ViewerState.idle [0] [(1, 100, 200)]))).highlights ≠ []) ∧
    ((runTimers 8000 (highlightAndScroll 7000 0 [⟨5, 6, 7, 8⟩] 10 20
        (highlightAndScroll 0 0 [⟨1, 2, 3, 4⟩] 10 20
          (ViewerState.idle [0] [(1, 100, 200)])))).highlights = []) ∧
    ((runTimers 8000 (highlightAndScroll 7000 0 [⟨5, 6, 7, 8⟩] 10 20
        (highlightAndScroll 0 0 [⟨1, 2, 3, 4⟩] 10 20
          (ViewerState.idle [0] [(1, 100, 200)])))).pendingTimers
      = [15000]) := by
  refine ⟨rfl, ?_, by decide, rfl⟩
  decide

/-- C10.  `handleCitationClick` is a no-op when the citation carries no
bounding boxes (`bounding_boxes` missing or empty): the viewer state —
highlights, timers, scroll requests — is returned unchanged. -/
theorem handleCitationClick_noop_without_boxes (now : ℕ) (c : Citation)
    (s : ViewerState)
    (h : c.bounding_boxes = none ∨ c.bounding_boxes = some []) :
    handleCitationClick now c (some s) = some s := by
  rcases h with h | h <;> simp [handleCitationClick, h]

theorem handleCitationClick_noop_without_boxes_witness :
    handleCitationClick 5 ⟨3, none, 10, 20⟩ (some (ViewerState.idle [] []))
      = some (ViewerState.idle [] []) :=
  handleCitationClick_noop_without_boxes 5 ⟨3, none, 10, 20⟩
    (ViewerState.idle [] []) (Or.inl rfl)

/-- C3 counterexample.  With a zero `sourcePageWidth` and the target page's
canvas present, `getHighlightStyle` does NOT return `null`: it produces a
style object (the JS code divides by zero without any check), refuting the
claim that a zero source dimension yields `null`/`MappingError`. -/
theorem getHighlightStyle_zero_width_not_null :
    (getHighlightStyle
      { id := (0, 0), page := 0, bbox := ⟨1, 2, 3, 4⟩,
        sourcePageWidth := 0, sourcePageHeight := 50 }
      [(1, 100, 200)]).isSome = true := by decide

/-- C3 amended.  `getHighlightStyle` returns `null` exactly when the canvas
of the highlight's target page does not exist; zero source dimensions are
not checked and still produce a style object. -/
theorem getHighlightStyle_none_iff_canvas_missing (h : Highlight)
    (cvs : List (ℕ × ℚ × ℚ)) :
    getHighlightStyle h cvs = none ↔ lookupCanvas (h.page + 1) cvs = none := by
  unfold getHighlightStyle
  rcases hc : lookupCanvas (h.page + 1) cvs with _ | ⟨cw, ch⟩ <;> simp

theorem filterMap_congr_map {α β : Type} (l : List α) (f : α → Option β)
    (g : α → β) (h : ∀ a ∈ l, f a = some (g a)) :
    l.filterMap f = l.map g := by
  induction l with
  | nil => rfl
  | cons a t ih =>
    rw [List.filterMap_cons, h a (by simp), List.map_cons,
      ih (fun x hx => h x (by simp [hx]))]

theorem mkBatch_filter_page (now p : ℕ) (boxes : List BBox) (pw ph : ℚ) :
    (mkBatch now p boxes pw ph).filter (fun h => h.page = p + 1 - 1)
      = mkBatch now p boxes pw ph := by
  apply List.filter_eq_self.mpr
  intro a ha
  have hp := (mkBatch_mem now p boxes pw ph a ha).1
  simp [hp]

/-- C4.  When the target page's canvas does not yet exist, the batch
installed by `highlightAndScroll` is not dropped: it stays in the highlight
state, but no overlay is drawn for the page (box computation is deferred
because `getHighlightStyle` returns `null`).  Once the canvas for that page
exists with dimensions `(cw, ch)`, re-rendering draws one overlay per
bounding box, positioned by the scale factors `cw / pw` and `ch / ph`. -/
theorem highlight_deferred_until_render (s : ViewerState) (now p : ℕ)
    (boxes : List BBox) (pw ph cw ch : ℚ)
    (hmiss : lookupCanvas (p + 1) s.canvases = none) :
    ((highlightAndScroll now p boxes pw ph s).highlights
      = mkBatch now p boxes pw ph) ∧
    (renderOverlays (p + 1) (highlightAndScroll now p boxes pw ph s) = []) ∧
    (renderOverlays (p + 1)
        { highlightAndScroll now p boxes pw ph s with
          canvases := (p + 1, cw, ch) :: s.canvases }
      = boxes.map (fun b =>
          { left := b.x0 * (cw / pw), top := b.y0 * (ch / ph),
            width := (b.x1 - b.x0) * (cw / pw),
            height := (b.y1 - b.y0) * (ch / ph) })) := by
  have hcv : (highlightAndScroll now p boxes pw ph s).canvases
      = s.canvases := rfl
  refine ⟨rfl, ?_, ?_⟩
  · unfold renderOverlays
    rw [highlightAndScroll_highlights, hcv, mkBatch_filter_page]
    apply List.filterMap_eq_nil_iff.mpr
    intro a ha
    have hp := (mkBatch_mem now p boxes pw ph a ha).1
    unfold getHighlightStyle
    rw [hp, hmiss]
  · unfold renderOverlays
    show ((mkBatch now p boxes pw ph).filter _).filterMap _ = _
    rw [mkBatch_filter_page]
    rw [filterMap_congr_map (mkBatch now p boxes pw ph) _
      (fun h => { left := h.bbox.x0 * (cw / h.sourcePageWidth),
                  top := h.bbox.y0 * (ch / h.sourcePageHeight),
                  width := (h.bbox.x1 - h.bbox.x0) * (cw / h.sourcePageWidth),
                  height := (h.bbox.y1 - h.bbox.y0) *
                    (ch / h.sourcePageHeight) })]
    · unfold mkBatch
      rw [List.map_map]
      rw [show ((fun h : Highlight =>
          ({ left := h.bbox.x0 * (cw / h.sourcePageWidth),
             top := h.bbox.y0 * (ch / h.sourcePageHeight),
             width := (h.bbox.x1 - h.bbox.x0) * (cw / h.sourcePageWidth),
             height := (h.bbox.y1 - h.bbox.y0) * (ch / h.sourcePageHeight) }
            : HighlightStyle)) ∘ fun q : ℕ × BBox =>
          ({ id := (now, q.1), page := p, bbox := q.2,
             sourcePageWidth := pw, sourcePageHeight := ph } : Highlight))
        = (fun b : BBox =>
            ({ left := b.x0 * (cw / pw), top := b.y0 * (ch / ph),
               width := (b.x1 - b.x0) * (cw / pw),
               height := (b.y1 - b.y0) * (ch / ph) } : HighlightStyle))
          ∘ Prod.snd from rfl]
      rw [← List.map_map, List.enum_map_snd]
    · intro a ha
      have hfields := mkBatch_mem now p boxes pw ph a ha
      unfold getHighlightStyle
      rw [hfields.1]
      rw [show lookupCanvas (p + 1) ((p + 1, cw, ch) :: s.canvases)
        = some (cw, ch) from by simp [lookupCanvas]]

theorem highlight_deferred_until_render_witness :
    (lookupCanvas (0 + 1) (ViewerState.idle [] []).canvases = none) ∧
    (renderOverlays (0 + 1)
      (highlightAndScroll 0 0 [⟨1, 2, 3, 4⟩] 10 20
        (ViewerState.idle [] [])) = []) ∧
    (renderOverlays (0 + 1)
        { highlightAndScroll 0 0 [⟨1, 2, 3, 4⟩] 10 20
            (ViewerState.idle [] []) with
          canvases := (0 + 1, 30, 40) :: (ViewerState.idle [] []).canvases }
      = ([⟨1, 2, 3, 4⟩] : List BBox).map (fun b =>
          { left := b.x0 * (30 / 10), top := b.y0 * (40 / 20),
            width := (b.x1 - b.x0) * (30 / 10),
            height := (b.y1 - b.y0) * (40 / 20) })) :=
  ⟨rfl,
   (highlight_deferred_until_render (ViewerState.idle [] []) 0 0
     [⟨1, 2, 3, 4⟩] 10 20 30 40 rfl).2.1,
   (highlight_deferred_until_render (ViewerState.idle [] []) 0 0
     [⟨1, 2, 3, 4⟩] 10 20 30 40 rfl).2.2⟩

/-- C5.  The coordinate mapping is linear with independent scale factors
`renderedWidth / sourceWidth` and `renderedHeight / sourceHeight` applied
to each bbox coordinate, and for positive dimensions it is reversible:
mapping the produced pixel rectangle back with the inverse scale factors
reproduces the original bounding box exactly. -/
theorem toPixelRect_linear_reversible (b : BBox) (idv : ℕ × ℕ) (page : ℕ)
    (cvs : List (ℕ × ℚ × ℚ)) (sw sh rw rh : ℚ)
    (hsw : 0 < sw) (hsh : 0 < sh) (hrw : 0 < rw) (hrh : 0 < rh)
    (hc : lookupCanvas (page + 1) cvs = some (rw, rh)) :
    (getHighlightStyle
        { id := idv, page := page, bbox := b,
          sourcePageWidth := sw, sourcePageHeight := sh } cvs
      = some { left := b.x0 * (rw / sw), top := b.y0 * (rh / sh),
               width := (b.x1 - b.x0) * (rw / sw),
               height := (b.y1 - b.y0) * (rh / sh) }) ∧
    (fromPixelRect
        { left := b.x0 * (rw / sw), top := b.y0 * (rh / sh),
          width := (b.x1 - b.x0) * (rw / sw),
          height := (b.y1 - b.y0) * (rh / sh) } sw sh rw rh = b) := by
  constructor
  · unfold getHighlightStyle
    rw [hc]
  · obtain ⟨x0, y0, x1, y1⟩ := b
    have hsw0 : sw ≠ 0 := ne_of_gt hsw
    have hsh0 : sh ≠ 0 := ne_of_gt hsh
    have hrw0 : rw ≠ 0 := ne_of_gt hrw
    have hrh0 : rh ≠ 0 := ne_of_gt hrh
    simp only [fromPixelRect, BBox.mk.injEq]
    refine ⟨?_, ?_, ?_, ?_⟩ <;> (field_simp; try ring)

theorem toPixelRect_linear_reversible_witness :
    (0 : ℚ) < 10 ∧ (0 : ℚ) < 20 ∧ (0 : ℚ) < 30 ∧ (0 : ℚ) < 40 ∧
    lookupCanvas (0 + 1) [(1, 30, 40)] = some (30, 40) ∧
    (fromPixelRect
        { left := (1 : ℚ) * (30 / 10), top := (2 : ℚ) * (40 / 20),
          width := ((3 : ℚ) - 1) * (30 / 10),
          height := ((4 : ℚ) - 2) * (40 / 20) } 10 20 30 40
      = ⟨1, 2, 3, 4⟩) := by
  refine ⟨by norm_num, by norm_num, by norm_num, by norm_num, by decide, ?_⟩
  exact (toPixelRect_linear_reversible ⟨1, 2, 3, 4⟩ (0, 0) 0 [(1, 30, 40)]
    10 20 30 40 (by norm_num) (by norm_num) (by norm_num) (by norm_num)
    (by decide)).2

theorem getHighlightStyle_none_iff_canvas_missing_witness :
    getHighlightStyle
      { id := (0, 0), page := 2, bbox := ⟨1, 2, 3, 4⟩,
        sourcePageWidth := 10, sourcePageHeight := 20 } [(1, 100, 200)]
      = none :=
  (getHighlightStyle_none_iff_canvas_missing
    { id := (0, 0), page := 2, bbox := ⟨1, 2, 3, 4⟩,
      sourcePageWidth := 10, sourcePageHeight := 20 } [(1, 100, 200)]).mpr
    (by decide)

theorem handleScrollAux_spec (ct H : ℚ) :
    ∀ (tops : List ℚ) (idx i : ℕ),
      handleScrollAux ct H tops idx = some i →
      idx ≤ i ∧ i - idx < tops.length ∧
      (∃ t, tops[i - idx]? = some t ∧ ct ≤ t ∧ t ≤ ct + H / 2) ∧
      (∀ j t', j < i - idx → tops[j]? = some t' →
        ¬(ct ≤ t' ∧ t' ≤ ct + H / 2)) := by
  intro tops
  induction tops with
  | nil => intro idx i h; simp [handleScrollAux] at h
  | cons t rest ih =>
    intro idx i h
    unfold handleScrollAux at h
    split at h
    · rename_i hpred
      cases h
      refine ⟨le_refl _, by simp, ⟨t, by simp, hpred⟩, ?_⟩
      intro j t' hj _
      omega
    · rename_i hpred
      obtain ⟨h1, h2, h3, h4⟩ := ih (idx + 1) i h
      refine ⟨by omega, ?_, ?_, ?_⟩
      · simp only [List.length_cons]; omega
      · obtain ⟨t', ht', hp⟩ := h3
        refine ⟨t', ?_, hp⟩
        rw [show i - idx = (i - (idx + 1)) + 1 from by omega]
        simpa using ht'
      · intro j t' hj hjt
        cases j with
        | zero =>
          simp only [List.getElem?_cons_zero, Option.some.injEq] at hjt
          subst hjt
          exact hpred
        | succ j' =>
          refine h4 j' t' (by omega) ?_
          simpa using hjt

/-- C8.  The scroll tracker reports as current page the first page, in
ascending document order, whose top edge lies within the top half of the
viewport (`containerTop ≤ top ≤ containerTop + containerHeight / 2`,
first match wins), displayed 1-based; and when page 0's top edge sits at
the top of the viewport (scrolled to the top) the tracker reports index 0,
displayed as page 1. -/
theorem current_page_first_in_top_half (ct H : ℚ) (tops : List ℚ)
    (cur : ℕ) :
    (∀ i, handleScrollAux ct H tops 0 = some i →
      handleScroll ct H tops cur = i + 1 ∧
      i < tops.length ∧
      (∃ t, tops[i]? = some t ∧ ct ≤ t ∧ t ≤ ct + H / 2) ∧
      (∀ j t', j < i → tops[j]? = some t' →
        ¬(ct ≤ t' ∧ t' ≤ ct + H / 2))) ∧
    (∀ t0 rest, tops = t0 :: rest → t0 = ct → 0 ≤ H →
      handleScroll ct H tops cur = 0 + 1) := by
  constructor
  · intro i hfind
    obtain ⟨h1, h2, h3, h4⟩ := handleScrollAux_spec ct H tops 0 i hfind
    rw [Nat.sub_zero] at h2 h3 h4
    refine ⟨?_, h2, h3, h4⟩
    unfold handleScroll
    rw [hfind]
  · intro t0 rest htops ht0 hH
    subst htops
    have hcond : ct ≤ t0 ∧ t0 ≤ ct + H / 2 :=
      ⟨ht0.ge, by rw [ht0]; linarith⟩
    unfold handleScroll handleScrollAux
    rw [if_pos hcond]

theorem current_page_first_in_top_half_witness :
    handleScrollAux 0 100 [(0 : ℚ), 300] 0 = some 0 ∧
    handleScroll 0 100 [(0 : ℚ), 300] 5 = 0 + 1 :=
  ⟨by norm_num [handleScrollAux],
   ((current_page_first_in_top_half 0 100 [(0 : ℚ), 300] 5).1 0
     (by norm_num [handleScrollAux])).1⟩

/-- C6.  Parsing tokenizes the answer text into literal spans and
bracketed-digit markers: `"See [1] and [2]."` with the table
`{1 ↦ c1, 2 ↦ c2}` yields exactly literal `"See "`, reference `(1, c1)`,
literal `" and "`, reference `(2, c2)`, literal `"."`, in that order; and
adjacent markers `"[1][2]"` are tokenized as two independent reference
tokens, not merged. -/
theorem parse_example_tokens (c1 c2 : Citation) :
    (parsedContent "See [1] and [2].".data
        [("1".data, c1), ("2".data, c2)]
      = [.span "See ".data, .button "1".data c1, .span " and ".data,
         .button "2".data c2, .span ".".data]) ∧
    (parsedContent "[1][2]".data [("1".data, c1), ("2".data, c2)]
      = [.span "".data, .button "1".data c1, .span "".data,
         .button "2".data c2, .span "".data]) :=
  ⟨rfl, rfl⟩

/-- C7.  A marker whose digits are not bound in the citation table is not
an error: the parse succeeds and the marker is emitted as a plain,
non-interactive text span — `"See [9]."` with a table lacking key `"9"`
yields spans only; and in general any part that fully matches the marker
pattern but misses the table renders as a plain span of its own text. -/
theorem unknown_marker_renders_plain (table : List (List Char × Citation))
    (h9 : lookupCitation ['9'] table = none) :
    (parsedContent "See [9].".data table
      = [.span "See ".data, .span "[9]".data, .span ".".data]) ∧
    (∀ part num, fullMarkerMatch part = some num →
      lookupCitation num table = none →
      renderPart table part = .span part) := by
  constructor
  · show (splitCitations "See [9].".data).map (renderPart table) = _
    rw [show splitCitations "See [9].".data
      = [['S', 'e', 'e', ' '], ['[', '9', ']'], ['.']] from by decide]
    simp only [List.map_cons, List.map_nil]
    rw [show renderPart table ['[', '9', ']']
        = (match lookupCitation ['9'] table with
           | some c => Rendered.button ['9'] c
           | none => Rendered.span ['[', '9', ']']) from rfl, h9]
    rfl
  · intro part num hm hl
    simp only [renderPart, hm, hl]

theorem unknown_marker_renders_plain_witness :
    parsedContent "See [9].".data [(['1'], ⟨0, none, 10, 20⟩)]
      = [.span "See ".data, .span "[9]".data, .span ".".data] :=
  (unknown_marker_renders_plain [(['1'], ⟨0, none, 10, 20⟩)] (by decide)).1
